import Mathlib

/-!
Shallow embedding of the pyalex/hipchat client (Go) for checking its
natural-language specification.

The repository holds several snapshots of the same client:

* `src/xmpp/xmpp.go` together with `src/hipchat.go` — the older client
  (plaintext-IQ auth, a read loop that reconnects on read failure);
* `src/unnamed/part_000` — the newer `xmpp` package (SASL PLAIN auth,
  archive/history queries, attachments);
* `src/unnamed/part_001` — two snapshots of the newer `hipchat` package;
  the second (latest) one owns `historyLock`, `getAttachments`, and a read
  loop that ignores IQ elements and terminates on read failure.

Pure functions of the source are translated as Lean functions; the XML
decode boundary is modelled by attaching to each inbound top-level element
the typed views that the Go decoder methods (`Features`, `Query`,
`Message`, `ForwardedMessage`) would produce for it; the stateful read
loops are folds over a list of inbound items producing the list of
channel sends and transport operations they perform.
-/

namespace Hipchat

/-! ## Namespace constants (src/unnamed/part_000, const block) -/

def NsJabberClient : String := "jabber:client"

def NsStream : String := "http://etherx.jabber.org/streams"

def NsIqAuth : String := "jabber:iq:auth"

def NsIqRoster : String := "jabber:iq:roster"

def NsTLS : String := "urn:ietf:params:xml:ns:xmpp-tls"

def NsSASL : String := "urn:ietf:params:xml:ns:xmpp-sasl"

def NsDisco : String := "http://jabber.org/protocol/disco#items"

def NsMucRoom : String := "http://hipchat.com/protocol/muc#room"

def NsMamForward : String := "urn:xmpp:forward:0"

/-! ## Base64 (Go `encoding/base64` StdEncoding, as used by `Conn.Auth`)

Go strings are byte strings, so credentials are modelled as lists of
bytes (`List Nat`, each < 256 for well-formed input). -/

/-- The standard base64 alphabet, index 0–63. -/
def b64Alphabet : List Char :=
  "ABCDEFGHIJKLMNOPQRSTUVWXYZabcdefghijklmnopqrstuvwxyz0123456789+/".data

/-- Character for one 6-bit group. -/
def b64Char (n : Nat) : Char := (b64Alphabet.getD n 'A')

/-- Go `base64.StdEncoding.Encode`: 3-byte groups become 4 output
characters, with `=` padding for a 1- or 2-byte tail. -/
def base64Encode : List Nat → List Char
  | [] => []
  | [b1] => [b64Char (b1 / 4), b64Char (b1 % 4 * 16), '=', '=']
  | [b1, b2] => [b64Char (b1 / 4), b64Char (b1 % 4 * 16 + b2 / 16),
      b64Char (b2 % 16 * 4), '=']
  | b1 :: b2 :: b3 :: rest =>
      b64Char (b1 / 4) :: b64Char (b1 % 4 * 16 + b2 / 16) ::
      b64Char (b2 % 16 * 4 + b3 / 64) :: b64Char (b3 % 64) ::
      base64Encode rest

/-- Base64 of a byte list, as a string. -/
def base64String (bs : List Nat) : String := String.mk (base64Encode bs)

/-- Byte list of an ASCII string (for concrete examples; for ASCII text
the UTF-8 bytes of a Go string are exactly the character codes). -/
def asciiBytes (s : String) : List Nat := s.data.map Char.toNat

/-- `raw := "\x00" + user + "\x00" + pass` of `Conn.Auth`
(src/unnamed/part_000, line 145). -/
def saslRaw (user pass : List Nat) : List Nat := 0 :: user ++ 0 :: pass

/-- The base64 body transmitted inside the SASL `auth` element
(`Conn.Auth`, src/unnamed/part_000 lines 144–150). -/
def saslPayload (user pass : List Nat) : String := base64String (saslRaw user pass)

/-- Full stanza written by `Conn.Auth`: the `xmlAuth` template filled
with `NsSASL` and the encoded credentials. -/
def authWire (user pass : List Nat) : String :=
  "<auth xmlns='" ++ NsSASL ++ "' mechanism='PLAIN'>" ++ saslPayload user pass ++ "</auth>"

/-- Stanza written by `Conn.StartTLS`: the `xmlStartTLS` template filled
with `NsTLS`. -/
def startTLSWire : String := "<starttls xmlns='" ++ NsTLS ++ "'/>"

/-- Stanza written by `Conn.Stream`: the `xmlStream` template. -/
def streamWire (jid host : String) : String :=
  "<stream:stream from='" ++ jid ++ "' to='" ++ host ++
  "' version='1.0' xml:lang='en' xmlns='" ++ NsJabberClient ++
  "' xmlns:stream='" ++ NsStream ++ "'>"

/-! ## The element reader `Conn.Next` (src/unnamed/part_000, lines 162–184)

The Go decoder produces a sequence of XML tokens and then fails (either
`io.EOF` when the underlying stream ends, or a decode error for
malformed input).  `Conn.Next` skips every token that is not a start
element, returns the first start element — rejecting one with an empty
local name as `"invalid xml response"` — and otherwise propagates the
decoder's terminal error. -/

/-- One decoded XML token: a start element (local name, namespace,
attributes), or anything else (character data, end element, …). -/
inductive XmlToken where
  | startTok (name space : String) (attrs : List (String × String))
  | otherTok
deriving DecidableEq, Repr

/-- How the underlying token stream ends: clean end-of-stream (`io.EOF`)
or a decoder error for malformed input. -/
inductive StreamEnd where
  | eofEnd
  | decodeErr (msg : String)
deriving DecidableEq, Repr

/-- Errors `Conn.Next` can return: an error propagated from the token
stream, or the `"invalid xml response"` protocol error for a start
element with an empty local name. -/
inductive NextErr where
  | streamErr (e : StreamEnd)
  | invalidXml
deriving DecidableEq, Repr

/-- A start element as returned by `Conn.Next`. -/
structure StartEl where
  name : String
  space : String
  attrs : List (String × String)
deriving DecidableEq, Repr

/-- `Conn.Next`: scan the token stream for the next start element;
an empty local name is the protocol error, exhaustion of the stream
returns the stream's own terminal error. -/
def connNext : List XmlToken → StreamEnd → Except NextErr StartEl
  | [], term => .error (.streamErr term)
  | .startTok n sp a :: _, _ =>
      if n = "" then .error .invalidXml else .ok ⟨n, sp, a⟩
  | .otherTok :: rest, term => connNext rest term

/-- The first start element of a token stream, if any. -/
def firstStart : List XmlToken → Option StartEl
  | [] => none
  | .startTok n sp a :: _ => some ⟨n, sp, a⟩
  | .otherTok :: rest => firstStart rest

/-! ## Data model (src/unnamed/part_000 types, src/unnamed/part_001 types) -/

/-- `xmpp.Attachment`. -/
structure Attachment where
  imageURL : String
  imageFilename : String
  thumbnailSize : String
  thumbnailURL : String
deriving DecidableEq, Repr

/-- `xmpp.item`: one `<item/>` of a query result. -/
structure Item where
  jid : String
  name : String
  mentionName : String
  topic : String
  owner : String
deriving DecidableEq, Repr

/-- `xmpp.query` as decoded by `Conn.Query`: the `query` element's
namespace and its items. -/
structure QueryView where
  space : String
  items : List Item
deriving DecidableEq, Repr

/-- The `x` invite payload of the latest `xmpp.IncomingMessage`
(`invite` struct of src/unnamed/part_000: `jid` and `reason` attrs). -/
structure InviteX where
  fromJid : String
  reason : String
deriving DecidableEq, Repr

/-- `xmpp.IncomingMessage` of src/unnamed/part_000 as decoded by
`Conn.Message`: attributes, body, delay stamp, html body inner xml,
optional `x` invite payload, and the inner xml of `result` / `fin`. -/
structure IncomingMessage where
  from_ : String
  to_ : String
  mid : String
  body : String
  delayStamp : String
  htmlBody : String
  invite : Option InviteX
  resultBody : String
  finBody : String
deriving DecidableEq, Repr

/-- `xmpp.ForwardedMessage` as decoded by `Conn.ForwardedMessage` from
the inner xml of a `result` element: a forwarded message plus its own
delay stamp. -/
structure ForwardedView where
  message : IncomingMessage
  delayStamp : String
deriving DecidableEq, Repr

/-- `xmpp.InviteMessage` of src/xmpp/xmpp.go as decoded by the older
`Conn.Invite`: room jid (message `from` attr), the muc#user invite
(from, reason) and the hipchat room extension (name, topic). -/
structure InviteMessageView where
  roomJid : String
  inviteFrom : String
  inviteReason : String
  roomName : String
  roomTopic : String
deriving DecidableEq, Repr

/-- `xmpp.features` as decoded by `Conn.Features`: whether
`starttls>required` was present (`StartTLS != nil`) and the offered
mechanisms. -/
structure FeaturesView where
  startTLSRequired : Bool
  mechanisms : List String
deriving DecidableEq, Repr

/-- One inbound top-level element together with the typed views the
decoder methods would produce for it on demand (`Conn.Features`,
`Conn.Query`, `Conn.Message`, the older `Conn.Invite`, and
`Conn.ForwardedMessage` applied to the message's `result` inner xml).
Only the view matching the element's classification is ever consulted. -/
structure ElemData where
  name : String
  space : String
  attrs : List (String × String)
  featuresView : FeaturesView
  queryView : QueryView
  msgView : IncomingMessage
  inviteMsgView : InviteMessageView
  forwardedView : ForwardedView
deriving DecidableEq, Repr

/-- An all-empty incoming message, for building concrete elements. -/
def msg0 : IncomingMessage :=
  { from_ := "", to_ := "", mid := "", body := "", delayStamp := ""
    htmlBody := "", invite := none, resultBody := "", finBody := "" }

/-- An all-empty element, for building concrete elements. -/
def elem0 : ElemData :=
  { name := "", space := "", attrs := []
    featuresView := { startTLSRequired := false, mechanisms := [] }
    queryView := { space := "", items := [] }
    msgView := msg0
    inviteMsgView := { roomJid := "", inviteFrom := "", inviteReason := ""
                       roomName := "", roomTopic := "" }
    forwardedView := { message := msg0, delayStamp := "" } }

/-- `hipchat.Room`. -/
structure Room where
  id : String
  name : String
  owner : String
  topic : String
deriving DecidableEq, Repr

/-- `hipchat.User`. -/
structure User where
  id : String
  name : String
  mentionName : String
deriving DecidableEq, Repr

/-! ## Timestamps (`strtotime`, src/unnamed/part_001 lines 578–584)

`time.Parse("2006-01-02T15:04:05Z", str)` yields the parsed time on a
well-formed stamp and an error otherwise, in which case `strtotime`
substitutes the receipt time `time.Now()`.  The value of a parsed time
is opaque here; the model keeps the raw stamp.  The layout check
approximates Go's calendar validation (day of month checked against
1–31 rather than the month's length). -/

/-- A Go time as produced by `strtotime`: a successfully parsed stamp,
or the receipt time substituted on parse failure. -/
inductive GoTime where
  | parsed (raw : String)
  | receiptTime
deriving DecidableEq, Repr

/-- Decimal digit test. -/
def isDig (c : Char) : Bool := '0' ≤ c && c ≤ '9'

/-- Numeric value of two digit characters. -/
def twoDig (a b : Char) : Nat := (a.toNat - 48) * 10 + (b.toNat - 48)

/-- Layout check for `"2006-01-02T15:04:05Z"`. -/
def stampOk (s : String) : Bool :=
  match s.data with
  | [y1, y2, y3, y4, h1, mo1, mo2, h2, d1, d2, t, hh1, hh2, c1, mi1, mi2, c2, s1, s2, z] =>
      isDig y1 && isDig y2 && isDig y3 && isDig y4 &&
      h1 = '-' && isDig mo1 && isDig mo2 && h2 = '-' &&
      isDig d1 && isDig d2 && t = 'T' &&
      isDig hh1 && isDig hh2 && c1 = ':' &&
      isDig mi1 && isDig mi2 && c2 = ':' &&
      isDig s1 && isDig s2 && z = 'Z' &&
      1 ≤ twoDig mo1 mo2 && twoDig mo1 mo2 ≤ 12 &&
      1 ≤ twoDig d1 d2 && twoDig d1 d2 ≤ 31 &&
      twoDig hh1 hh2 ≤ 23 && twoDig mi1 mi2 ≤ 59 && twoDig s1 s2 ≤ 59
  | _ => false

/-- `strtotime`: parse the delay stamp, defaulting to receipt time. -/
def strtotime (s : String) : GoTime :=
  if stampOk s then .parsed s else .receiptTime

/-! ## Attachment extraction (`getAttachments`, src/unnamed/part_001
lines 586–599)

The regular expression
`<img src='([^']+)' title='([^']+)' longdesc='([^']+)##([^']+)'`
is applied with `FindAllStringSubmatch`: successive leftmost matches.
Because each group is a nonempty run of non-quote characters delimited
by literal quotes, groups 1 and 2 are forced to be the full span up to
the next quote; greedy matching splits group 3/4 at the last `##` of
the longdesc span that leaves group 4 nonempty. -/

/-- The apostrophe delimiter of the attribute values. -/
def quoteChar : Char := Char.ofNat 39

/-- Match a literal character list as a prefix, returning the rest. -/
def matchLit : List Char → List Char → Option (List Char)
  | [], cs => some cs
  | _ :: _, [] => none
  | l :: ls, c :: cs => if c = l then matchLit ls cs else none

/-- Take one `[^']+` field up to the next quote (the rest starts at the
quote); fails when empty. -/
def takeField (cs : List Char) : Option (List Char × List Char) :=
  let f := cs.takeWhile (fun c => c != quoteChar)
  if f.isEmpty then none else some (f, cs.drop f.length)

/-- Split `s` as `p ++ "##" ++ q` with `p` and `q` nonempty, choosing the
longest `p` (the greedy split of `([^']+)##([^']+)`). -/
def splitLastHH : List Char → Option (List Char × List Char)
  | [] => none
  | c :: rest =>
      match splitLastHH rest with
      | some (p, q) => some (c :: p, q)
      | none =>
          match rest with
          | '#' :: '#' :: q => if q.isEmpty then none else some ([c], q)
          | _ => none

/-- Attempt one full pattern match at the current position, returning
the attachment and the rest of the input after the match. -/
def tryAttachment (cs : List Char) : Option (Attachment × List Char) :=
  match matchLit "<img src='".data cs with
  | none => none
  | some r1 =>
    match takeField r1 with
    | none => none
    | some (g1, r2) =>
      match matchLit "' title='".data r2 with
      | none => none
      | some r3 =>
        match takeField r3 with
        | none => none
        | some (g2, r4) =>
          match matchLit "' longdesc='".data r4 with
          | none => none
          | some r5 =>
            let s := r5.takeWhile (fun c => c != quoteChar)
            match r5.drop s.length with
            | c :: r7 =>
                if c = quoteChar then
                  match splitLastHH s with
                  | some (g3, g4) =>
                      some ({ imageURL := String.mk g1, imageFilename := String.mk g2
                              thumbnailSize := String.mk g3, thumbnailURL := String.mk g4 }, r7)
                  | none => none
                else none
            | [] => none

/-- Scan for successive leftmost matches; fuel bounds the number of
positions visited (each step consumes at least one character). -/
def scanAttachments : Nat → List Char → List Attachment
  | 0, _ => []
  | _, [] => []
  | fuel + 1, cs =>
      match tryAttachment cs with
      | some (a, r) => a :: scanAttachments fuel r
      | none =>
          match cs with
          | [] => []
          | _ :: rest => scanAttachments fuel rest

/-- `getAttachments`: empty html body yields no attachments, otherwise
all regex matches in document order. -/
def getAttachments (htmlBody : String) : List Attachment :=
  if htmlBody == "" then []
  else scanAttachments htmlBody.data.length htmlBody.data

/-! ## Messages handed to the application -/

/-- `hipchat.Message` of the latest snapshot (with attachments). -/
structure Message where
  from_ : String
  to_ : String
  body : String
  mentionName : String
  stamp : GoTime
  mid : String
  attachments : List Attachment
deriving DecidableEq, Repr

/-- `hipchat.Message` of the older snapshot (src/hipchat.go, no
attachments). -/
structure OldMessage where
  from_ : String
  to_ : String
  body : String
  mentionName : String
  stamp : GoTime
  mid : String
deriving DecidableEq, Repr

/-! ## Observable effects

Every channel send and transport operation the client performs, in
program order.  Outbound stanzas that embed a fresh random correlation
id are kept symbolic (constructor with the template's parameters); the
deterministic stanzas used by the handshake claims have their wire text
given by `streamWire` / `startTLSWire` / `authWire`. -/

/-- One observable effect of the client. -/
inductive Output where
  | streamSent (jid host : String)
  | startTLSSent
  | authSent (user pass : List Nat)
  | iqAuthSent (user pass resource : String)
  | bindSent (resource : String)
  | sessionSent
  | presenceSent (jid state : String)
  | rooms (xs : List Room)
  | users (xs : List User)
  | live (m : Message)
  | oldLive (m : OldMessage)
  | aliveSignal
  | history (xs : List Message)
  | releaseHistoryLock
  | closedTransport
  | slept
  | dialed
  | panicked
  | reconnectNotify
deriving DecidableEq, Repr

/-- Wire text of the deterministic outbound stanzas (those whose
template embeds no random correlation id). -/
def wireText : Output → Option String
  | .streamSent jid host => some (streamWire jid host)
  | .startTLSSent => some startTLSWire
  | .authSent user pass => some (authWire user pass)
  | _ => none

/-! ## Connection state (for the TLS upgrade, `Conn.UseTLS`)

`Conn` owns the raw socket (`outgoing`) and the decode cursor
(`incoming`, an `xml.Decoder` that may hold buffered undecoded bytes).
`UseTLS` wraps the socket in a TLS client and builds a brand-new
decoder over it: the old cursor and its buffered bytes are discarded.
`cursorGen` counts decoder recreations so reuse is observable. -/

/-- The connection: socket encryption flag, the decode cursor's
buffered bytes, and the cursor generation. -/
structure ConnSt where
  encrypted : Bool
  cursorBuffered : List Nat
  cursorGen : Nat
deriving DecidableEq, Repr

/-- A freshly dialed connection (`xmpp.Dial`): plaintext socket, new
decoder with nothing buffered. -/
def freshConn : ConnSt := { encrypted := false, cursorBuffered := [], cursorGen := 0 }

/-- `Conn.UseTLS`: `outgoing = tls.Client(outgoing, …)` and
`incoming = xml.NewDecoder(outgoing)` — encrypted socket, recreated
cursor with empty buffer. -/
def useTLS (c : ConnSt) : ConnSt :=
  { encrypted := true, cursorBuffered := [], cursorGen := c.cursorGen + 1 }

/-- Identity parameters of a client: `Id` (jid), the package host, the
resource, and the credentials as byte strings. -/
structure ClientId where
  jid : String
  host : String
  resource : String
  user : List Nat
  pass : List Nat
deriving DecidableEq, Repr

/-- One read of the handshake loop: a read failure (`Next` returned an
error) or a successfully read top-level element with its views. -/
inductive AuthInbound where
  | readFail
  | elem (e : ElemData)
deriving DecidableEq, Repr

/-- A script for one reconnect attempt: whether the redial succeeds,
and the reads the new connection serves to `authenticate`. -/
structure ReconScript where
  dialOk : Bool
  authIns : List AuthInbound
deriving DecidableEq, Repr

/-- One read of the live loop: a read failure (with the script for the
reconnect attempt the older client would then run) or an element. -/
inductive Inbound where
  | readFail (sc : ReconScript)
  | elem (e : ElemData)
deriving DecidableEq, Repr

/-! ## The handshake (`Client.authenticate`)

The latest snapshot (src/unnamed/part_001, lines 520–564) classifies
each element by `Name.Local + Name.Space` and reacts:

* `stream` + stream namespace: decode features; mandatory STARTTLS
  (`StartTLS != nil`) sends the start-TLS request, otherwise a SASL
  `auth` request is sent for each offered `"PLAIN"` mechanism;
* `proceed` + TLS namespace: `UseTLS` then re-send the stream open;
* `success` + SASL namespace: re-send stream open, bind, session;
* `failure` + SASL namespace: return the authentication error;
* `iq` + client namespace: a `type='result'` attribute means
  authenticated; any other `iq` returns the authentication error;
* anything else: loop again (log only).

A read error returns the connection error. -/

/-- How the handshake loop ends. -/
inductive AuthEnd where
  | ok
  | authFailed
  | connError
  | ranOut
deriving DecidableEq, Repr

/-- Does the attribute list carry `type='result'`? (the `for` loop over
`element.Attr` in the `iq` case). -/
def hasTypeResult (attrs : List (String × String)) : Bool :=
  attrs.any (fun a => a.1 == "type" && a.2 == "result")

/-- The latest `Client.authenticate` loop body, as a fold over reads.
Returns the final connection, the effects in order, and the outcome. -/
def authLoop (conn : ConnSt) (cid : ClientId) :
    List AuthInbound → ConnSt × List Output × AuthEnd
  | [] => (conn, [], .ranOut)
  | .readFail :: _ => (conn, [], .connError)
  | .elem e :: rest =>
      if e.name ++ e.space == "stream" ++ NsStream then
        let outs :=
          if e.featuresView.startTLSRequired then [Output.startTLSSent]
          else (e.featuresView.mechanisms.filter (fun m => m == "PLAIN")).map
            (fun _ => Output.authSent cid.user cid.pass)
        let r := authLoop conn cid rest
        (r.1, outs ++ r.2.1, r.2.2)
      else if e.name ++ e.space == "proceed" ++ NsTLS then
        let r := authLoop (useTLS conn) cid rest
        (r.1, Output.streamSent cid.jid cid.host :: r.2.1, r.2.2)
      else if e.name ++ e.space == "success" ++ NsSASL then
        let r := authLoop conn cid rest
        (r.1, Output.streamSent cid.jid cid.host :: Output.bindSent cid.resource ::
          Output.sessionSent :: r.2.1, r.2.2)
      else if e.name ++ e.space == "failure" ++ NsSASL then
        (conn, [], .authFailed)
      else if e.name ++ e.space == "iq" ++ NsJabberClient then
        if hasTypeResult e.attrs then (conn, [], .ok) else (conn, [], .authFailed)
      else
        authLoop conn cid rest

/-- The latest `Client.authenticate`: send the stream open, then run
the loop. -/
def authenticate (conn : ConnSt) (cid : ClientId) (ins : List AuthInbound) :
    ConnSt × List Output × AuthEnd :=
  let r := authLoop conn cid ins
  (r.1, Output.streamSent cid.jid cid.host :: r.2.1, r.2.2)

/-- The older `Client.authenticate` loop body (src/hipchat.go, lines
162–197): same classification but without the SASL `success`/`failure`
cases, and the non-TLS features case sends the plaintext IQ auth
request (3-argument `Conn.Auth` of src/xmpp/xmpp.go). The older client
passes its credentials as Go strings straight into the template. -/
def authLoopOld (conn : ConnSt) (jid host user pass resource : String) :
    List AuthInbound → ConnSt × List Output × AuthEnd
  | [] => (conn, [], .ranOut)
  | .readFail :: _ => (conn, [], .connError)
  | .elem e :: rest =>
      if e.name ++ e.space == "stream" ++ NsStream then
        let outs :=
          if e.featuresView.startTLSRequired then [Output.startTLSSent]
          else (e.featuresView.mechanisms.filter (fun m => m == "PLAIN")).map
            (fun _ => Output.iqAuthSent user pass resource)
        let r := authLoopOld conn jid host user pass resource rest
        (r.1, outs ++ r.2.1, r.2.2)
      else if e.name ++ e.space == "proceed" ++ NsTLS then
        let r := authLoopOld (useTLS conn) jid host user pass resource rest
        (r.1, Output.streamSent jid host :: r.2.1, r.2.2)
      else if e.name ++ e.space == "iq" ++ NsJabberClient then
        if hasTypeResult e.attrs then (conn, [], .ok) else (conn, [], .authFailed)
      else
        authLoopOld conn jid host user pass resource rest

/-- The older `Client.authenticate`: stream open, then the loop. -/
def authenticateOld (conn : ConnSt) (jid host user pass resource : String)
    (ins : List AuthInbound) : ConnSt × List Output × AuthEnd :=
  let r := authLoopOld conn jid host user pass resource ins
  (r.1, Output.streamSent jid host :: r.2.1, r.2.2)

/-! ## The older live read loop and its reconnect supervisor
(src/hipchat.go, `Client.listen` lines 220–279 and `Client.reconnect`
lines 199–218) -/

/-- `xmpp.ToMap` followed by a Go map lookup: the value of the last
attribute with that local name, `""` when absent. -/
def attrGet (attrs : List (String × String)) (k : String) : String :=
  match (attrs.filter (fun a => a.1 == k)).getLast? with
  | some a => a.2
  | none => ""

/-- A `Room` from one query `item` (the disco branch). -/
def roomOfItem (i : Item) : Room :=
  { id := i.jid, name := i.name, owner := i.owner, topic := i.topic }

/-- A `User` from one query `item` (the roster branch). -/
def userOfItem (i : Item) : User :=
  { id := i.jid, name := i.name, mentionName := i.mentionName }

/-- The older `Conn.Invite` (src/xmpp/xmpp.go lines 168–175): decode
the invite message, refusing one with an empty invite `from` or an
empty room topic; src/hipchat.go turns it into a single `Room`. -/
def inviteRoom (v : InviteMessageView) : Option Room :=
  if v.inviteFrom == "" || v.roomTopic == "" then none
  else some { id := v.roomJid, name := v.roomName, owner := v.inviteFrom
              topic := v.roomTopic }

/-- One element through the older `Client.listen` dispatch. -/
def oldStep (e : ElemData) : List Output :=
  if e.name ++ e.space == "iq" ++ NsJabberClient then
    if e.queryView.space == NsMucRoom then
      [Output.rooms (e.queryView.items.map roomOfItem)]
    else if e.queryView.space == NsIqRoster then
      [Output.users (e.queryView.items.map userOfItem)]
    else []
  else if e.name ++ e.space == "message" ++ NsJabberClient then
    if attrGet e.attrs "type" != "groupchat" then
      match inviteRoom e.inviteMsgView with
      | some r => [Output.rooms [r]]
      | none => []
    else
      [Output.aliveSignal,
       Output.oldLive
         { from_ := attrGet e.attrs "from", to_ := attrGet e.attrs "to"
           body := e.msgView.body, mentionName := ""
           stamp := strtotime e.msgView.delayStamp
           mid := attrGet e.attrs "mid" }]
  else []

/-- `Client.reconnect` of src/hipchat.go: close the old transport (the
error, if any, is only logged), sleep the fixed one-minute backoff,
redial (a dial failure panics, aborting the process), install the fresh
connection, rerun `authenticate` from scratch ignoring its outcome,
restore presence `available`, and signal `OnReconnect`. -/
def reconnectOuts (jid host user pass resource : String) (sc : ReconScript) :
    List Output :=
  [Output.closedTransport, Output.slept] ++
  (if sc.dialOk then
    Output.dialed ::
      (authenticateOld freshConn jid host user pass resource sc.authIns).2.1 ++
      [Output.presenceSent jid "available", Output.reconnectNotify]
  else [Output.panicked])

/-- The older `Client.listen`: on a read failure run `reconnect` and
continue (unless the reconnect panicked, which aborts the process);
otherwise dispatch the element and continue. -/
def listenOld (jid host user pass resource : String) : List Inbound → List Output
  | [] => []
  | .readFail sc :: rest =>
      reconnectOuts jid host user pass resource sc ++
      (if sc.dialOk then listenOld jid host user pass resource rest else [])
  | .elem e :: rest => oldStep e ++ listenOld jid host user pass resource rest

/-! ## The latest live read loop (src/unnamed/part_001, lines 601–674)

State: the archive accumulation buffer `messageBuffer` and the `Closed`
flag.  On a read failure the loop sets `Closed` and returns — it never
reconnects.  `iq` elements are skipped (`continue`; the decode and
dispatch of query results is commented out).  A `message` element is
decoded and handled by the body / fin / invite / result chain. -/

/-- The mutable part of the latest client touched by `listen`.  The Go
buffer reset `c.messageBuffer = c.messageBuffer[:0]` is modelled with
value semantics as the empty list. -/
structure LClient where
  messageBuffer : List Message
  closed : Bool
deriving DecidableEq, Repr

/-- The latest client exactly after construction: empty buffer, open. -/
def lclient0 : LClient := { messageBuffer := [], closed := false }

/-- The archive message appended by the `result` branch: decode the
forwarded envelope, blank an `@attachment` body, extract attachments
from the forwarded html body, stamp from the envelope delay. -/
def forwardedMsg (e : ElemData) : Message :=
  { from_ := e.forwardedView.message.from_
    to_ := e.forwardedView.message.to_
    body := if e.forwardedView.message.body == "@attachment" then ""
            else e.forwardedView.message.body
    mentionName := ""
    stamp := strtotime e.forwardedView.delayStamp
    mid := e.forwardedView.message.mid
    attachments := getAttachments e.forwardedView.message.htmlBody }

/-- The live message delivered by the body branch. -/
def liveMsg (m : IncomingMessage) : Message :=
  { from_ := m.from_, to_ := m.to_
    body := if m.body == "@attachment" then "" else m.body
    mentionName := ""
    stamp := strtotime m.delayStamp
    mid := m.mid
    attachments := getAttachments m.htmlBody }

/-- The live-delivery guard of the latest loop's message branch. -/
def isLiveCond (m : IncomingMessage) : Bool :=
  m.body != "" && m.body != "none"

/-- The invite guard of the latest loop's message branch. -/
def inviteCond (m : IncomingMessage) : Bool :=
  match m.invite with
  | some inv => inv.fromJid != ""
  | none => false

/-- One element through the latest `Client.listen` dispatch. -/
def latestStep (c : LClient) (e : ElemData) : LClient × List Output :=
  if e.name ++ e.space == "iq" ++ NsJabberClient then (c, [])
  else if e.name ++ e.space == "message" ++ NsJabberClient then
    let m := e.msgView
    if isLiveCond m then
      (c, [Output.live (liveMsg m)])
    else if m.finBody != "" then
      ({ c with messageBuffer := [] },
       [Output.history c.messageBuffer, Output.releaseHistoryLock])
    else if inviteCond m then
      (c, [Output.rooms [{ id := (m.invite.map InviteX.fromJid).getD ""
                           name := "", owner := ""
                           topic := (m.invite.map InviteX.reason).getD "" }]])
    else if m.resultBody != "" then
      ({ c with messageBuffer := c.messageBuffer ++ [forwardedMsg e] }, [])
    else (c, [])
  else (c, [])

/-- The latest `Client.listen`: a read failure sets `Closed` and
returns; elements are dispatched in order. -/
def listenLatest (c : LClient) : List Inbound → LClient × List Output
  | [] => (c, [])
  | .readFail _ :: _ => ({ c with closed := true }, [])
  | .elem e :: rest =>
      let r := latestStep c e
      let r2 := listenLatest r.1 rest
      (r2.1, r.2 ++ r2.2)

/-! ## Classification of elements for the archive claims -/

/-- Is the element a `message` in the client namespace? -/
def isMsgElem (e : ElemData) : Bool :=
  e.name ++ e.space == "message" ++ NsJabberClient

/-- An end-of-archive marker: a message that reaches the `fin` branch. -/
def isFinElem (e : ElemData) : Bool :=
  isMsgElem e && !isLiveCond e.msgView && e.msgView.finBody != ""

/-- An archive page: a message that reaches the `result` branch. -/
def isArchiveElem (e : ElemData) : Bool :=
  isMsgElem e && !isLiveCond e.msgView && e.msgView.finBody == "" &&
  !inviteCond e.msgView && e.msgView.resultBody != ""

/-- The archive messages a run of elements accumulates, in arrival
order. -/
def archiveMsgs (es : List ElemData) : List Message :=
  (es.filter isArchiveElem).map forwardedMsg

/-- Select history deliveries from an effect list. -/
def historyOf : Output → Option (List Message)
  | .history xs => some xs
  | _ => none

/-- Select live-message deliveries from an effect list. -/
def liveOf : Output → Option Message
  | .live m => some m
  | _ => none

/-- Select user-list deliveries from an effect list. -/
def usersOf : Output → Option (List User)
  | .users xs => some xs
  | _ => none

/-! ## Serialization of archive fetches (`historyLock`)

`Client.LoadHistory` (src/unnamed/part_001, lines 514–518) sends on the
capacity-one channel `historyLock` (blocking while another fetch holds
it), issues the archive query, and blocks on `recievedHistory`; the
listen loop's `fin` branch delivers the buffer and then receives from
`historyLock`, releasing it.  The model is a transition system over two
fetching threads (named by `Bool`):

* `acquire t` — thread `t` completes `historyLock <- true`; enabled only
  while the lock is free;
* `query t` — thread `t`'s `connection.History(…)` write; enabled after
  its acquire;
* `finish t` — the listener dispatches the end-of-archive marker of
  thread `t`'s fetch: delivers the buffer and releases the lock. -/

/-- An event of the archive-fetch protocol. -/
inductive HistEv where
  | acquire (t : Bool)
  | query (t : Bool)
  | finish (t : Bool)
deriving DecidableEq, Repr, Fintype

/-- The control point of one fetching thread. -/
inductive FetchPc where
  | notStarted
  | holding
  | queried
  | done
deriving DecidableEq, Repr, Fintype

/-- Global state: the single-slot lock and both threads' points. -/
structure HistSt where
  lockHeld : Bool
  pcT : FetchPc
  pcF : FetchPc
deriving DecidableEq, Repr, Fintype

/-- Control point of a thread. -/
def pcOf (s : HistSt) (t : Bool) : FetchPc := if t then s.pcT else s.pcF

/-- Update the control point of a thread. -/
def setPcOf (s : HistSt) (t : Bool) (p : FetchPc) : HistSt :=
  if t then { s with pcT := p } else { s with pcF := p }

/-- One enabled step, `none` when the event is blocked. -/
def histStep (s : HistSt) : HistEv → Option HistSt
  | .acquire t =>
      if s.lockHeld == false && pcOf s t == .notStarted then
        some { setPcOf s t .holding with lockHeld := true }
      else none
  | .query t =>
      if pcOf s t == .holding then some (setPcOf s t .queried) else none
  | .finish t =>
      if pcOf s t == .queried then
        some { setPcOf s t .done with lockHeld := false }
      else none

/-- Run a sequence of events; `none` when some event was blocked. -/
def histRun (s : HistSt) : List HistEv → Option HistSt
  | [] => some s
  | e :: rest =>
      match histStep s e with
      | some s' => histRun s' rest
      | none => none

/-- Both threads idle, lock free. -/
def histInit : HistSt := { lockHeld := false, pcT := .notStarted, pcF := .notStarted }

/-- A fetch is outstanding: past its acquire, end marker not seen. -/
def inFlight (p : FetchPc) : Bool := p == .holding || p == .queried

/-- The serialization invariant: an outstanding fetch holds the lock,
and at most one fetch is outstanding. -/
def histInv (s : HistSt) : Prop :=
  (inFlight s.pcT = true → s.lockHeld = true) ∧
  (inFlight s.pcF = true → s.lockHeld = true) ∧
  ¬(inFlight s.pcT = true ∧ inFlight s.pcF = true)

instance (s : HistSt) : Decidable (histInv s) := by
  unfold histInv; infer_instance

/-! ## Concrete elements used by counterexamples and witnesses -/

/-- A concrete client identity. -/
def cid0 : ClientId :=
  { jid := "11111_22222@chat.hipchat.com", host := "chat.hipchat.com"
    resource := "bot", user := asciiBytes "11111_22222", pass := asciiBytes "secret" }

/-- An `iq` in the client namespace whose `type` is not `result`. -/
def iqErrElem : ElemData :=
  { elem0 with name := "iq", space := NsJabberClient, attrs := [("type", "error")] }

/-- A top-level element outside the handshake's five handled keys. -/
def presElem : ElemData :=
  { elem0 with name := "presence", space := NsJabberClient }

/-- An `iq` result carrying a roster query body with one user item. -/
def iqRosterElem : ElemData :=
  { elem0 with
    name := "iq"
    space := NsJabberClient
    attrs := [("type", "result")]
    queryView :=
      { space := NsIqRoster
        items := [{ jid := "1_1@chat.hipchat.com", name := "Alice Doe"
                    mentionName := "alice", topic := "", owner := "" }] } }

/-- A reconnect script whose redial succeeds and whose re-handshake
sees no elements. -/
def sc0 : ReconScript := { dialOk := true, authIns := [] }

/-- An archive-result message element carrying one forwarded message. -/
def archElem : ElemData :=
  { elem0 with
    name := "message"
    space := NsJabberClient
    msgView := { msg0 with resultBody := "<forwarded/>" }
    forwardedView :=
      { message :=
          { msg0 with
            from_ := "1_r@conf.hipchat.com"
            to_ := "1_1@chat.hipchat.com"
            body := "hello"
            mid := "m1" }
        delayStamp := "2024-01-02T03:04:05Z" } }

/-- An end-of-archive marker message element. -/
def finElem : ElemData :=
  { elem0 with
    name := "message"
    space := NsJabberClient
    msgView := { msg0 with finBody := "<set/>" } }

/-! ## C1 — SASL auth payload

The general encoding rule of `Conn.Auth` holds, but the spec's concrete
example is wrong: base64 of `"\x00eve\x00hunter2"` is
`AGV2ZQBodW50ZXIy`, not `AGV2ZQBoZW50ZXIy` (which decodes to
`"\x00eve\x00henter2"`). -/

/-- C1, counterexample: for user `eve` and pass `hunter2` the payload
sent by `Conn.Auth` is not the spec's `AGV2ZQBoZW50ZXIy`. -/
theorem claim1_payload_counterexample :
    saslPayload (asciiBytes "eve") (asciiBytes "hunter2") ≠ "AGV2ZQBoZW50ZXIy" := by
  decide

/-- C1, amended: for every credential pair the SASL auth payload equals
base64 of NUL + user + NUL + pass, and for user `eve`, pass `hunter2`
the payload is `AGV2ZQBodW50ZXIy`; the payload is transmitted as the
body of the `auth` request. -/
theorem claim1_sasl_payload :
    (∀ user pass : List Nat,
      saslPayload user pass = base64String (0 :: user ++ 0 :: pass))
    ∧ (∀ user pass : List Nat,
      authWire user pass =
        "<auth xmlns='" ++ NsSASL ++ "' mechanism='PLAIN'>" ++
          saslPayload user pass ++ "</auth>")
    ∧ saslPayload (asciiBytes "eve") (asciiBytes "hunter2") = "AGV2ZQBodW50ZXIy" :=
  ⟨fun _ _ => rfl, fun _ _ => rfl, by decide⟩

/-! ## C9 — `Conn.Next` -/

/-- C9: `Conn.Next` returns the first start element of the token
stream; a start element with an empty local name yields the protocol
error `invalidXml`, which is distinct from end-of-stream; the stream's
terminal condition (in particular end-of-stream) is reported only when
no start element remains, i.e. when the underlying token stream itself
ends. -/
theorem claim9_next_element :
    (∀ (ts : List XmlToken) (term : StreamEnd),
      connNext ts term =
        match firstStart ts with
        | some e => if e.name = "" then .error .invalidXml else .ok e
        | none => .error (.streamErr term))
    ∧ NextErr.invalidXml ≠ NextErr.streamErr StreamEnd.eofEnd := by
  refine ⟨?_, by decide⟩
  intro ts term
  induction ts with
  | nil => rfl
  | cons t rest ih =>
    cases t with
    | startTok n sp a => simp [connNext, firstStart]
    | otherTok => simpa [connNext, firstStart] using ih

/-! ## C6 — mandatory STARTTLS -/

/-- C6: on a `stream` element whose features advertise mandatory
STARTTLS, the handshake's sole response is the start-TLS request —
whose wire text is exactly `<starttls xmlns='urn:ietf:params:xml:ns:xmpp-tls'/>` —
and no authentication request is among the outputs for that element. -/
theorem claim6_starttls :
    ∀ (conn : ConnSt) (cid : ClientId) (rest : List AuthInbound)
      (d : ElemData) (mechs : List String) (ats : List (String × String)),
      (authLoop conn cid (.elem { d with
          name := "stream"
          space := NsStream
          attrs := ats
          featuresView := { startTLSRequired := true, mechanisms := mechs } } :: rest)
        = ((authLoop conn cid rest).1,
           Output.startTLSSent :: (authLoop conn cid rest).2.1,
           (authLoop conn cid rest).2.2))
      ∧ wireText Output.startTLSSent
          = some "<starttls xmlns='urn:ietf:params:xml:ns:xmpp-tls'/>"
      ∧ (∀ u p, Output.authSent u p ≠ Output.startTLSSent) := by
  intro conn cid rest d mechs ats
  exact ⟨rfl, rfl, fun u p h => by cases h⟩

/-! ## C7 — TLS proceed -/

/-- C7: on a TLS `proceed` element the handshake upgrades the
connection — the socket becomes encrypted and the decode cursor is
recreated (a fresh generation with an empty buffer, so no byte buffered
by the old cursor survives) — and its next output is the re-sent
stream-open request, the handshake continuing over the upgraded
connection. -/
theorem claim7_tls_proceed :
    ∀ (conn : ConnSt) (cid : ClientId) (rest : List AuthInbound) (d : ElemData),
      (authLoop conn cid (.elem { d with name := "proceed", space := NsTLS } :: rest)
        = ((authLoop (useTLS conn) cid rest).1,
           Output.streamSent cid.jid cid.host :: (authLoop (useTLS conn) cid rest).2.1,
           (authLoop (useTLS conn) cid rest).2.2))
      ∧ (useTLS conn).encrypted = true
      ∧ (useTLS conn).cursorBuffered = []
      ∧ (useTLS conn).cursorGen = conn.cursorGen + 1 := by
  intro conn cid rest d
  exact ⟨rfl, rfl, rfl, rfl⟩

/-! ## C8 — unrecognized elements during the handshake

Claim C8 says every element other than the six transition inputs is
ignored without being fatal.  That is false: an `iq` element in the
client namespace whose `type` is not `result` is not one of the six
transition inputs, yet the handshake terminates on it with the
authentication error (`return errors.New("could not authenticate")`,
src/unnamed/part_001 lines 552–559). -/

/-- The five handled `Name.Local + Name.Space` keys of `authenticate`. -/
def authHandledKeys : List String :=
  ["stream" ++ NsStream, "proceed" ++ NsTLS, "success" ++ NsSASL,
   "failure" ++ NsSASL, "iq" ++ NsJabberClient]

/-- C8, counterexample: an `iq` with `type='error'` — not one of the
six transition inputs — is fatal: the handshake stops with the
authentication error instead of ignoring it (processing nothing at all
would end in `ranOut` instead). -/
theorem claim8_counterexample :
    authLoop freshConn cid0 [.elem iqErrElem] = (freshConn, [], .authFailed)
    ∧ authLoop freshConn cid0 [] = (freshConn, [], .ranOut)
    ∧ AuthEnd.authFailed ≠ AuthEnd.ranOut :=
  ⟨rfl, rfl, by decide⟩

/-- C8, amended: while negotiating, every top-level element whose
name+namespace is not one of the five handled keys is ignored without
output, state change, or termination; but among recognized keys an
`iq` element lacking a `type='result'` attribute is fatal — it ends the
handshake with the authentication error. -/
theorem claim8_ignore_unrecognized :
    ∀ (conn : ConnSt) (cid : ClientId) (rest : List AuthInbound) (e : ElemData),
      ((e.name ++ e.space) ∉ authHandledKeys →
        authLoop conn cid (.elem e :: rest) = authLoop conn cid rest)
      ∧ (e.name = "iq" → e.space = NsJabberClient → hasTypeResult e.attrs = false →
        authLoop conn cid (.elem e :: rest) = (conn, [], .authFailed)) := by
  intro conn cid rest e
  constructor
  · intro h
    simp only [authHandledKeys, List.mem_cons, List.mem_singleton, not_or] at h
    obtain ⟨h1, h2, h3, h4, h5⟩ := h
    simp [authLoop, h1, h2, h3, h4, h5]
  · intro hn hs hr
    simp [authLoop, hn, hs, hr, NsJabberClient, NsStream, NsTLS, NsSASL]

/-- C8, witness for the amended theorem: a `presence` element is
ignored, and the `type='error'` iq is fatal. -/
theorem claim8_witness :
    (authLoop freshConn cid0 [.elem presElem] = authLoop freshConn cid0 [])
    ∧ (authLoop freshConn cid0 [.elem iqErrElem] = (freshConn, [], .authFailed)) :=
  ⟨(claim8_ignore_unrecognized freshConn cid0 [] presElem).1 (by decide),
   (claim8_ignore_unrecognized freshConn cid0 [] iqErrElem).2 rfl rfl (by decide)⟩

/-! ## C2 — IQ results carrying directory/roster bodies

The claim holds of the older read loop (src/hipchat.go lines 230–246)
but not of the latest one (src/unnamed/part_001 lines 609–628), whose
`iq` case is a bare `continue`: the decode and channel delivery are
commented out, so nothing is ever delivered for an IQ element. -/

/-- C2, counterexample: the latest read loop, given an IQ result
carrying a roster query body, delivers nothing at all — in particular
no user list. -/
theorem claim2_counterexample :
    (listenLatest lclient0 [.elem iqRosterElem]).2 = []
    ∧ (listenLatest lclient0 [.elem iqRosterElem]).2.filterMap usersOf = [] :=
  ⟨rfl, rfl⟩

/-- C2, amended: in the older read loop an inbound IQ result carrying a
directory (disco) query body is decoded into a Room list and one
carrying a roster query body into a User list, each delivered exactly
once on its result channel; the latest read loop instead skips every IQ
element and delivers nothing. -/
theorem claim2_iq_results :
    ∀ (d : ElemData) (qv : QueryView) (ats : List (String × String)) (c : LClient),
      (oldStep { d with
          name := "iq"
          space := NsJabberClient
          attrs := ats
          queryView := qv }
        = (if qv.space == NsMucRoom then [Output.rooms (qv.items.map roomOfItem)]
           else if qv.space == NsIqRoster then [Output.users (qv.items.map userOfItem)]
           else []))
      ∧ (latestStep c { d with
          name := "iq"
          space := NsJabberClient
          attrs := ats
          queryView := qv } = (c, [])) := by
  intro d qv ats c
  exact ⟨rfl, rfl⟩

/-! ## C3 — reconnection on read failure

The claim holds of the older client (`Client.reconnect`,
src/hipchat.go lines 199–227) but not of the latest one: its read loop
(src/unnamed/part_001 lines 601–607) sets `Closed` and returns on a
read failure, performing no reconnect and emitting no notification. -/

/-- C3, counterexample: the latest read loop, on a read failure,
terminates with `Closed` set, emitting nothing — no transport close, no
redial, no reconnect notification. -/
theorem claim3_counterexample :
    listenLatest lclient0 [.readFail sc0]
      = ({ messageBuffer := [], closed := true }, [])
    ∧ Output.reconnectNotify ∉ (listenLatest lclient0 [.readFail sc0]).2 :=
  ⟨rfl, by decide⟩

/-- No branch of the older handshake loop outputs `panicked`. -/
theorem authLoopOld_no_panic :
    ∀ (ins : List AuthInbound) (conn : ConnSt) (jid host user pass resource : String),
      Output.panicked ∉ (authLoopOld conn jid host user pass resource ins).2.1 := by
  intro ins
  induction ins with
  | nil => intro conn jid host user pass resource; simp [authLoopOld]
  | cons i rest ih =>
    intro conn jid host user pass resource
    cases i with
    | readFail => simp [authLoopOld]
    | elem e =>
      simp only [authLoopOld]
      split_ifs with h1 h2 h3 <;>
        simp_all [List.mem_append, List.mem_map, ih]

/-- C3, amended: in the older client, whenever the live read loop's
read fails the client closes the old transport, sleeps the fixed
backoff, redials, reruns authentication from scratch (stream open plus
the handshake loop), restores presence `available`, signals the
reconnect notification, and the loop continues — the read failure is
not surfaced to the application (though a dial failure during the
reconnect aborts the process).  The latest client's read loop instead
terminates on a read failure, setting `Closed`, with no reconnection. -/
theorem claim3_reconnect :
    ∀ (jid host user pass resource : String) (sc : ReconScript)
      (rest : List Inbound) (c : LClient),
      (listenOld jid host user pass resource (.readFail sc :: rest)
        = reconnectOuts jid host user pass resource sc ++
          (if sc.dialOk then listenOld jid host user pass resource rest else []))
      ∧ (reconnectOuts jid host user pass resource { dialOk := true, authIns := sc.authIns }
        = [Output.closedTransport, Output.slept, Output.dialed,
           Output.streamSent jid host] ++
          (authLoopOld freshConn jid host user pass resource sc.authIns).2.1 ++
          [Output.presenceSent jid "available", Output.reconnectNotify])
      ∧ Output.panicked ∉
          reconnectOuts jid host user pass resource { dialOk := true, authIns := sc.authIns }
      ∧ listenLatest c (.readFail sc :: rest) = ({ c with closed := true }, []) := by
  intro jid host user pass resource sc rest c
  refine ⟨rfl, ?_, ?_, rfl⟩
  · simp [reconnectOuts, authenticateOld]
  · simp [reconnectOuts, authenticateOld]
    exact authLoopOld_no_panic sc.authIns freshConn jid host user pass resource

/-! ## C10 — live delivery in the latest read loop -/

/-- The message key differs from the iq key. -/
theorem key_msg_ne_iq :
    ("message" ++ NsJabberClient == "iq" ++ NsJabberClient) = false := rfl

/-- The message key matches itself. -/
theorem key_msg_eq_msg :
    ("message" ++ NsJabberClient == "message" ++ NsJabberClient) = true := rfl

/-- The iq key differs from the message key. -/
theorem key_iq_ne_msg :
    ("iq" ++ NsJabberClient == "message" ++ NsJabberClient) = false := rfl

/-- C10: a message element is delivered on the live channel exactly
when its body is non-empty and differs from `"none"` (the guard
`isLiveCond`); the delivered message replaces an `"@attachment"` body
by the empty string and carries the attachments extracted from the
html body. -/
theorem claim10_live_delivery :
    ∀ (c : LClient) (d : ElemData) (m : IncomingMessage),
      ((latestStep c { d with
          name := "message"
          space := NsJabberClient
          msgView := m }).2.filterMap liveOf
        = (if isLiveCond m then [liveMsg m] else []))
      ∧ isLiveCond m = (m.body != "" && m.body != "none")
      ∧ (liveMsg { m with body := "@attachment" } =
          { from_ := m.from_
            to_ := m.to_
            body := ""
            mentionName := ""
            stamp := strtotime m.delayStamp
            mid := m.mid
            attachments := getAttachments m.htmlBody }) := by
  intro c d m
  refine ⟨?_, rfl, rfl⟩
  simp only [latestStep, key_msg_ne_iq, key_msg_eq_msg]
  norm_num
  split_ifs <;> simp [liveOf]

/-! ## C4 — archive fetch and the accumulation buffer -/

/-- A non-marker element leaves the buffer as is, or appends exactly
its forwarded message when it is an archive result; it delivers no
history. -/
theorem latestStep_no_fin :
    ∀ (c : LClient) (e : ElemData), isFinElem e = false →
      (latestStep c e).1.messageBuffer
        = c.messageBuffer ++ (if isArchiveElem e then [forwardedMsg e] else [])
      ∧ (latestStep c e).2.filterMap historyOf = [] := by
  intro c e h
  cases hiq : (e.name ++ e.space == "iq" ++ NsJabberClient) with
  | true =>
      have hne : e.name ++ e.space = "iq" ++ NsJabberClient := eq_of_beq hiq
      have hmsg : isMsgElem e = false := by
        simp only [isMsgElem, hne]; rfl
      exact ⟨by simp [latestStep, hiq, isArchiveElem, hmsg],
             by simp [latestStep, hiq]⟩
  | false =>
    cases hmsg : (e.name ++ e.space == "message" ++ NsJabberClient) with
    | false =>
        have hm : isMsgElem e = false := by simp [isMsgElem, hmsg]
        exact ⟨by simp [latestStep, hiq, hmsg, isArchiveElem, hm],
               by simp [latestStep, hiq, hmsg]⟩
    | true =>
      have hm : isMsgElem e = true := by simp [isMsgElem, hmsg]
      cases hlive : isLiveCond e.msgView with
      | true =>
          have harch : isArchiveElem e = false := by simp [isArchiveElem, hlive]
          exact ⟨by simp [latestStep, hiq, hmsg, hlive, harch],
                 by simp [latestStep, hiq, hmsg, hlive, liveOf, historyOf]⟩
      | false =>
        cases hfin : (e.msgView.finBody != "") with
        | true =>
            exfalso
            have : isFinElem e = true := by simp [isFinElem, hm, hlive, hfin]
            simp [this] at h
        | false =>
          have hfin0 : e.msgView.finBody = "" := by simpa using hfin
          cases hinv : inviteCond e.msgView with
          | true =>
              have harch : isArchiveElem e = false := by simp [isArchiveElem, hinv]
              exact ⟨by simp [latestStep, hiq, hmsg, hlive, hfin, hinv, harch],
                     by simp [latestStep, hiq, hmsg, hlive, hfin, hinv, historyOf]⟩
          | false =>
            cases hres : (e.msgView.resultBody != "") with
            | true =>
                have harch : isArchiveElem e = true := by
                  simp [isArchiveElem, hm, hlive, hfin0, hinv, hres]
                exact ⟨by simp [latestStep, hiq, hmsg, hlive, hfin, hinv, hres, harch],
                       by simp [latestStep, hiq, hmsg, hlive, hfin, hinv, hres]⟩
            | false =>
                have harch : isArchiveElem e = false := by simp [isArchiveElem, hres]
                exact ⟨by simp [latestStep, hiq, hmsg, hlive, hfin, hinv, hres, harch],
                       by simp [latestStep, hiq, hmsg, hlive, hfin, hinv, hres]⟩

/-- The end-of-archive marker delivers the accumulated buffer, releases
the history lock, and clears the buffer. -/
theorem latestStep_fin :
    ∀ (c : LClient) (e : ElemData), isFinElem e = true →
      latestStep c e = ({ c with messageBuffer := [] },
        [Output.history c.messageBuffer, Output.releaseHistoryLock]) := by
  intro c e h
  simp only [isFinElem, isMsgElem, Bool.and_eq_true] at h
  obtain ⟨⟨hm, hlive⟩, hfin⟩ := h
  have hne : e.name ++ e.space = "message" ++ NsJabberClient := eq_of_beq hm
  have hiq : (e.name ++ e.space == "iq" ++ NsJabberClient) = false := by
    rw [hne]; rfl
  have hlv : isLiveCond e.msgView = false := by simpa using hlive
  simp [latestStep, hiq, hm, hlv, hfin]

/-- Dispatching a run of elements and then further input concatenates
states and effects. -/
theorem listenLatest_elems_append :
    ∀ (es : List ElemData) (c : LClient) (rest : List Inbound),
      listenLatest c (es.map Inbound.elem ++ rest)
        = ((listenLatest (listenLatest c (es.map Inbound.elem)).1 rest).1,
           (listenLatest c (es.map Inbound.elem)).2
             ++ (listenLatest (listenLatest c (es.map Inbound.elem)).1 rest).2) := by
  intro es
  induction es with
  | nil => intro c rest; simp [listenLatest]
  | cons e tl ih =>
      intro c rest
      simp [listenLatest, ih, List.append_assoc]

/-- Processing marker-free elements appends exactly their archive
results, in arrival order, to the buffer and delivers no history. -/
theorem listenLatest_accum :
    ∀ (es : List ElemData) (c : LClient), (∀ e ∈ es, isFinElem e = false) →
      (listenLatest c (es.map Inbound.elem)).1.messageBuffer
        = c.messageBuffer ++ archiveMsgs es
      ∧ (listenLatest c (es.map Inbound.elem)).2.filterMap historyOf = [] := by
  intro es
  induction es with
  | nil => intro c h; simp [listenLatest, archiveMsgs]
  | cons e tl ih =>
      intro c h
      have he : isFinElem e = false := h e (List.mem_cons_self e tl)
      have htl : ∀ x ∈ tl, isFinElem x = false :=
        fun x hx => h x (List.mem_cons_of_mem e hx)
      obtain ⟨hbuf, hhist⟩ := latestStep_no_fin c e he
      obtain ⟨ihbuf, ihhist⟩ := ih (latestStep c e).1 htl
      constructor
      · show (listenLatest c (Inbound.elem e :: tl.map Inbound.elem)).1.messageBuffer = _
        simp only [listenLatest]
        rw [ihbuf, hbuf]
        cases ha : isArchiveElem e with
        | true => simp [archiveMsgs, ha, List.filter_cons, List.append_assoc]
        | false => simp [archiveMsgs, ha, List.filter_cons, List.append_assoc]
      · show (listenLatest c (Inbound.elem e :: tl.map Inbound.elem)).2.filterMap historyOf = _
        simp only [listenLatest]
        rw [List.filterMap_append, hhist, ihhist]
        rfl

/-- C4: starting from an empty accumulation buffer, processing the
elements between the archive query and its end-of-archive marker and
then the marker itself delivers exactly one history result — the
archive messages accumulated in arrival order — and leaves the buffer
empty immediately afterwards (so the next fetch again starts empty). -/
theorem claim4_archive_fetch :
    ∀ (es : List ElemData) (fe : ElemData) (c : LClient),
      c.messageBuffer = [] →
      (∀ e ∈ es, isFinElem e = false) →
      isFinElem fe = true →
      (listenLatest c ((es ++ [fe]).map Inbound.elem)).1.messageBuffer = []
      ∧ (listenLatest c ((es ++ [fe]).map Inbound.elem)).2.filterMap historyOf
          = [archiveMsgs es] := by
  intro es fe c hc hes hfe
  rw [List.map_append]
  rw [listenLatest_elems_append es c ([fe].map Inbound.elem)]
  obtain ⟨hbuf, hhist⟩ := listenLatest_accum es c hes
  have hstep := latestStep_fin (listenLatest c (es.map Inbound.elem)).1 fe hfe
  constructor
  · simp [listenLatest, hstep]
  · rw [List.filterMap_append, hhist]
    simp [listenLatest, hstep, historyOf, hbuf, hc]

/-- C4, witness: one archive page followed by the end marker from a
freshly constructed client. -/
theorem claim4_witness :
    (lclient0.messageBuffer = []
     ∧ (∀ e ∈ [archElem], isFinElem e = false)
     ∧ isFinElem finElem = true)
    ∧ ((listenLatest lclient0 (([archElem] ++ [finElem]).map Inbound.elem)).1.messageBuffer = []
       ∧ (listenLatest lclient0 (([archElem] ++ [finElem]).map Inbound.elem)).2.filterMap historyOf
           = [archiveMsgs [archElem]]) :=
  ⟨⟨rfl, by decide, by decide⟩,
   claim4_archive_fetch [archElem] finElem lclient0 rfl (by decide) (by decide)⟩

/-! ## C5 — strict serialization of archive fetches -/

/-- Every enabled step preserves the serialization invariant. -/
theorem histStep_preserves_inv :
    ∀ (s s' : HistSt) (e : HistEv),
      histInv s → histStep s e = some s' → histInv s' := by decide

/-- Runs preserve the serialization invariant. -/
theorem histRun_preserves_inv :
    ∀ (tr : List HistEv) (s s' : HistSt),
      histInv s → histRun s tr = some s' → histInv s' := by
  intro tr
  induction tr with
  | nil =>
      intro s s' h hr
      simp only [histRun] at hr
      cases hr
      exact h
  | cons e rest ih =>
      intro s s' h hr
      simp only [histRun] at hr
      cases hstep : histStep s e with
      | none => rw [hstep] at hr; cases hr
      | some m =>
          rw [hstep] at hr
          exact ih m s' (histStep_preserves_inv s m e h hstep) hr

/-- A thread past its query and before its end marker stays there under
any other enabled step. -/
theorem histStep_queried_stays :
    ∀ (s s' : HistSt) (e : HistEv) (t : Bool),
      histStep s e = some s' → pcOf s t = .queried → e ≠ .finish t →
      pcOf s' t = .queried := by decide

/-- A successful `query t` step requires the thread to hold the lock. -/
theorem histStep_query_enabled :
    ∀ (s s' : HistSt) (t : Bool),
      histStep s (.query t) = some s' → pcOf s t = .holding := by decide

/-- After its `query t` step the thread is at `queried`. -/
theorem histStep_query_pc :
    ∀ (s s' : HistSt) (t : Bool),
      histStep s (.query t) = some s' → pcOf s' t = .queried := by decide

/-- `queried` persists along a run containing no `finish t`. -/
theorem histRun_queried_stays :
    ∀ (tr : List HistEv) (s s' : HistSt) (t : Bool),
      histRun s tr = some s' → pcOf s t = .queried → HistEv.finish t ∉ tr →
      pcOf s' t = .queried := by
  intro tr
  induction tr with
  | nil =>
      intro s s' t hr hq _
      simp only [histRun] at hr
      cases hr
      exact hq
  | cons e rest ih =>
      intro s s' t hr hq hf
      simp only [histRun] at hr
      cases hstep : histStep s e with
      | none => rw [hstep] at hr; cases hr
      | some m =>
          rw [hstep] at hr
          have hne : e ≠ .finish t := fun hmem => hf (hmem ▸ List.mem_cons_self e rest)
          have hm : pcOf m t = .queried := histStep_queried_stays s m e t hstep hq hne
          exact ih m s' t hr hm (fun hmem => hf (List.mem_cons_of_mem e hmem))

/-- After a run containing `query t` but no `finish t`, the thread is
at `queried`. -/
theorem histRun_query_mem :
    ∀ (tr : List HistEv) (s s' : HistSt) (t : Bool),
      histRun s tr = some s' → HistEv.query t ∈ tr → HistEv.finish t ∉ tr →
      pcOf s' t = .queried := by
  intro tr
  induction tr with
  | nil => intro s s' t _ hq _; cases hq
  | cons e rest ih =>
      intro s s' t hr hq hf
      simp only [histRun] at hr
      cases hstep : histStep s e with
      | none => rw [hstep] at hr; cases hr
      | some m =>
          rw [hstep] at hr
          have hf' : HistEv.finish t ∉ rest :=
            fun hmem => hf (List.mem_cons_of_mem e hmem)
          rcases List.mem_cons.mp hq with he | hq'
          · subst he
            have hm : pcOf m t = .queried := histStep_query_pc s m t hstep
            exact histRun_queried_stays rest m s' t hr hm hf'
          · exact ih m s' t hr hq' hf'

/-- Splitting a run at an event. -/
theorem histRun_append :
    ∀ (u v : List HistEv) (s : HistSt),
      histRun s (u ++ v) = (histRun s u).bind (fun m => histRun m v) := by
  intro u
  induction u with
  | nil => intro v s; simp [histRun]
  | cons e rest ih =>
      intro v s
      simp only [List.cons_append, histRun]
      cases histStep s e with
      | none => simp
      | some m => simp [ih]

/-- C5: archive fetches are strictly serialized.  In every schedule the
lock protocol admits (`histRun` from the initial state succeeds), if
one thread's archive query was sent before another thread's query, the
first thread's end-of-archive marker was dispatched — delivering its
buffer and releasing `historyLock` — before the second query was sent:
at most one archive fetch is ever outstanding. -/
theorem claim5_history_serialized :
    ∀ (u v : List HistEv) (t t' : Bool),
      t ≠ t' →
      (histRun histInit (u ++ HistEv.query t' :: v)).isSome →
      HistEv.query t ∈ u →
      HistEv.finish t ∈ u := by
  intro u v t t' hne hsome hq
  by_contra hf
  rw [histRun_append] at hsome
  cases hu : histRun histInit u with
  | none => rw [hu] at hsome; simp at hsome
  | some m =>
      rw [hu] at hsome
      simp only [Option.some_bind, histRun] at hsome
      cases hstep : histStep m (.query t') with
      | none => rw [hstep] at hsome; simp at hsome
      | some m1 =>
          have hinv : histInv m :=
            histRun_preserves_inv u histInit m (by decide) hu
          have hqd : pcOf m t = .queried :=
            histRun_query_mem u histInit m t hu hq hf
          have hh : pcOf m t' = .holding :=
            histStep_query_enabled m m1 t' hstep
          obtain ⟨_, _, h3⟩ := hinv
          apply h3
          cases t with
          | true =>
              cases t' with
              | true => exact absurd rfl hne
              | false =>
                  simp only [pcOf, if_pos, if_neg] at hqd hh
                  constructor <;> simp_all [inFlight]
          | false =>
              cases t' with
              | false => exact absurd rfl hne
              | true =>
                  simp only [pcOf, if_pos, if_neg] at hqd hh
                  constructor <;> simp_all [inFlight]

/-- C5, witness: thread `true` acquires, queries and completes, thread
`false` acquires; appending thread `false`'s query is an admissible
schedule, and indeed thread `true`'s marker is in the prefix. -/
theorem claim5_witness :
    HistEv.finish true ∈
      [HistEv.acquire true, HistEv.query true, HistEv.finish true,
       HistEv.acquire false] :=
  claim5_history_serialized
    [HistEv.acquire true, HistEv.query true, HistEv.finish true,
     HistEv.acquire false] [] true false
    (by decide) (by decide) (by decide)

end Hipchat

